import Mathlib
/-!
Verification development for the slack-mcp repository.

The Python sources (src/slack_client.py, src/summarizer.py, src/mcp_server.py)
are shallowly embedded below.  Pure functions become Lean functions on
`List Char` (Python strings are sequences of code points; `String.data`
mediates), stateful code becomes explicit state passing, backend calls become
function parameters, and exceptions become `Except`.  Python regular
expressions are embedded as deterministic scanners that realise `re.sub` /
`re.search` semantics for the concrete patterns appearing in the source.
The character-class model is the ASCII fragment of Python semantics
(`str.lower`, `str.split`, `\w`, `\s`), which is exact on ASCII inputs.
-/

/- ====================  Definitions (shallow embedding)  ==================== -/

deriving instance DecidableEq for Except

/-- ASCII model of the Python whitespace class used by `str.split()`,
`str.strip()` and the regex class `\s`. -/
def isPyWs (c : Char) : Bool :=
  c = ' ' || c = '\t' || c = '\n' || c = '\x0d' || c = '\x0b' || c = '\x0c'

/-- ASCII model of `str.lower` applied to one character. -/
def pyLowerChar (c : Char) : Char :=
  if 'A' ≤ c && c ≤ 'Z' then Char.ofNat (c.toNat + 32) else c

/-- ASCII model of `str.lower`. -/
def pyLower (s : List Char) : List Char :=
  s.map pyLowerChar

/-- Model of the regex class `\w` (ASCII fragment): letters, digits, underscore. -/
def isWordChar (c : Char) : Bool :=
  ('a' ≤ c && c ≤ 'z') || ('A' ≤ c && c ≤ 'Z') || ('0' ≤ c && c ≤ '9') || c = '_'

/-- Model of the Python substring test `pat in s`. -/
def containsSeq (s pat : List Char) : Bool :=
  match s with
  | [] => pat.isEmpty
  | _ :: rest => pat.isPrefixOf s || containsSeq rest pat

/-- Scan `s` and all of its suffixes with the position matcher `p`
(the search part of `re.search`). -/
def scanAny (s : List Char) (p : List Char → Bool) : Bool :=
  p s ||
    match s with
    | [] => false
    | _ :: rest => scanAny rest p

/-- Embedding of the `User` dataclass (slack_client.py). -/
structure User where
  id : List Char
  name : List Char
  real_name : List Char
  is_bot : Bool
deriving DecidableEq, Repr

/-- Embedding of the `Message` dataclass (slack_client.py).  The derived
`timestamp : datetime` field is omitted: no claim concerns it and it is a
pure function of `ts`. -/
structure Message where
  ts : List Char
  text : List Char
  user_id : Option (List Char)
  user_name : Option (List Char) := none
  channel_id : List Char := []
  channel_name : List Char := []
  thread_ts : Option (List Char) := none
  reply_count : Nat := 0
  is_mention : Bool := false
deriving DecidableEq, Repr

/-- Embedding of the `Conversation` dataclass (slack_client.py).
`latest_message` is omitted (never set by the embedded code paths). -/
structure Conversation where
  id : List Char
  name : List Char
  type : List Char
  is_member : Bool := true
  is_archived : Bool := false
  unread_count : Nat := 0
  last_read : Option (List Char) := none
deriving DecidableEq, Repr

/-- One element of the backend `conversations_list` response: the attribute
record the client reads through `conv.get(...)`, with absent keys already
defaulted the way the Python code defaults them. -/
structure RawConv where
  id : List Char
  name : Option (List Char) := none
  is_im : Bool := false
  is_mpim : Bool := false
  is_private : Bool := false
  user : Option (List Char) := none
  is_member : Bool := true
  is_archived : Bool := false
  unread_count : Nat := 0
  last_read : Option (List Char) := none
deriving DecidableEq, Repr

/-- One element of a backend message payload as the client reads it
(`msg.get(...)` with the code's defaults already applied). -/
structure RawMsg where
  subtype : Option (List Char) := none
  user : Option (List Char) := none
  text : List Char := []
  ts : List Char := []
  thread_ts : Option (List Char) := none
  reply_count : Nat := 0
deriving DecidableEq, Repr

/-- Embedding of `SlackClient._get_conversation_type` (slack_client.py 149-157). -/
def _get_conversation_type (conv : RawConv) : List Char :=
  if conv.is_im then "dm".data
  else if conv.is_mpim then "mpim".data
  else if conv.is_private then "group".data
  else "channel".data

/-- Fuel-driven worker realising Python `str.replace` (all non-overlapping
occurrences, left to right); fuel at least `s.length` makes it total. -/
def replaceAllF : Nat → List Char → List Char → List Char → List Char
  | 0, s, _, _ => s
  | _ + 1, [], _, _ => []
  | fuel + 1, c :: rest, pat, rep =>
    if pat ≠ [] ∧ pat.isPrefixOf (c :: rest) then
      rep ++ replaceAllF fuel ((c :: rest).drop pat.length) pat rep
    else
      c :: replaceAllF fuel rest pat rep

/-- Model of Python `s.replace(pat, rep)` for nonempty `pat`. -/
def replaceAll (s pat rep : List Char) : List Char :=
  replaceAllF (s.length + 1) s pat rep

/-- Embedding of `SlackClient._get_conversation_name` (slack_client.py
159-173) on the `resolve_users=False` path, the only one exercised by
`get_conversations` (line 126 passes the default). -/
def _get_conversation_name (conv : RawConv) (conv_type : List Char) : List Char :=
  if conv_type = "dm".data then
    match conv.user with
    | some uid => "@user:".data ++ uid
    | none => "@Unknown".data
  else if conv_type = "mpim".data then
    replaceAll (replaceAll (conv.name.getD "Group DM".data) "mpdm-".data "".data)
      "--".data ", ".data
  else
    "#".data ++ conv.name.getD "unknown".data

/-- Construction of one `Conversation` from a backend record, as done in the
fetch loop of `get_conversations` (slack_client.py 124-136). -/
def convFromRaw (conv : RawConv) : Conversation :=
  let t := _get_conversation_type conv
  { id := conv.id, name := _get_conversation_name conv t, type := t,
    is_member := conv.is_member, is_archived := conv.is_archived,
    unread_count := conv.unread_count, last_read := conv.last_read }

/-- The mutable fields of `SlackClient` that `get_conversations` touches. -/
structure ClientState where
  conversations_cache : Option (List Conversation) := none
  conversations_cache_time : Nat := 0
deriving DecidableEq, Repr

/-- Result of one `get_conversations` call: returned list, state after the
call, and how many backend conversation-listing fetches were issued (one
cursor-paginated `conversations_list` loop counts as one fetch). -/
structure ConvResult where
  convs : List Conversation
  state : ClientState
  fetches : Nat
deriving DecidableEq, Repr

/-- The default `types` argument of `get_conversations` (slack_client.py 101). -/
def defaultConvTypes : List Char := "public_channel,private_channel,mpim,im".data

/-- Model of Python `types.split(",")` (every comma splits; empty pieces kept). -/
def splitCommaAux (acc : List Char) : List Char → List (List Char)
  | [] => [acc.reverse]
  | c :: rest =>
    if c = ',' then acc.reverse :: splitCommaAux [] rest
    else splitCommaAux (c :: acc) rest

/-- Model of Python `types.split(",")`. -/
def splitComma (s : List Char) : List (List Char) :=
  splitCommaAux [] s

/-- The `type_map` of the cache-filtering branch (slack_client.py 108),
with the `type_map.get(t, t)` fallback. -/
def mapConvType (t : List Char) : List Char :=
  if t = "public_channel".data then "channel".data
  else if t = "private_channel".data then "group".data
  else if t = "mpim".data then "mpim".data
  else if t = "im".data then "dm".data
  else t

/-- The `allowed` set of conversation kinds for a `types` request string
(slack_client.py 107-109). -/
def allowedKinds (types : List Char) : List (List Char) :=
  (splitComma types).map mapConvType

/-- The backend-fetch arm of `get_conversations` (slack_client.py 112-147):
one full cursor-paginated `conversations_list` fetch, collapsed into a single
oracle call; the cache is refreshed only when `types` is exactly the default
superset string. -/
def getConversationsFetch (st : ClientState) (backend : List Char → List RawConv)
    (now : Nat) (types : List Char) : ConvResult :=
  let convs := (backend types).map convFromRaw
  let st' :=
    if types = defaultConvTypes then
      { conversations_cache := some convs, conversations_cache_time := now }
    else st
  ⟨convs, st', 1⟩

/-- Embedding of `SlackClient.get_conversations` (slack_client.py 101-147).
`now` models `time.time()`; the Python truthiness test on the cached list
means an empty cached list does not count as a usable cache. -/
def get_conversations (st : ClientState) (backend : List Char → List RawConv)
    (now : Nat) (types : List Char) (use_cache : Bool) : ConvResult :=
  match st.conversations_cache with
  | some cached =>
    if use_cache ∧ cached ≠ [] ∧ now - st.conversations_cache_time < 300 then
      ⟨cached.filter (fun c => (allowedKinds types).contains c.type), st, 0⟩
    else
      getConversationsFetch st backend now types
  | none => getConversationsFetch st backend now types

/-- Embedding of `SlackClient.get_user` (slack_client.py 81-99): the backend
profile table is `users`; an absent id models a `SlackApiError` lookup and
degrades to the placeholder user. -/
def get_user (users : List User) (uid : List Char) : User :=
  match users.find? (fun u => u.id = uid) with
  | some u => u
  | none => { id := uid, name := "unknown".data, real_name := "Unknown User".data, is_bot := false }

/-- Embedding of `SlackClient.resolve_dm_name` (slack_client.py 175-181). -/
def resolve_dm_name (users : List User) (conv : Conversation) : List Char :=
  if "@user:".data.isPrefixOf conv.name then
    "@".data ++ (get_user users (conv.name.drop 6)).real_name
  else conv.name

/-- The `@user` loop of `_resolve_channel` (slack_client.py 470-476): first
conversation whose stored name contains the handle case-insensitively. -/
def dmLoop (username : List Char) : List Conversation → Except (List Char) (List Char)
  | [] => .error ("Could not find DM with user: ".data ++ username)
  | c :: rest =>
    if containsSeq (pyLower c.name) (pyLower username) then .ok c.id
    else dmLoop username rest

/-- The channel loop of `_resolve_channel` (slack_client.py 479-483): first
conversation whose name, with leading hashes stripped, equals the request. -/
def channelLoop (channel : List Char) : List Conversation → Except (List Char) (List Char)
  | [] => .error ("Could not find channel: ".data ++ channel)
  | c :: rest =>
    if c.name.dropWhile (fun x => x = '#') = channel then .ok c.id
    else channelLoop channel rest

/-- The id-convention test of `_resolve_channel` (slack_client.py 462):
`channel.startswith("C") or channel.startswith("D") or channel.startswith("G")`. -/
def startsWithIdLetter (channel : List Char) : Bool :=
  match channel.head? with
  | some c => c = 'C' || c = 'D' || c = 'G'
  | none => false

/-- Embedding of `SlackClient._resolve_channel` (slack_client.py 459-483).
Returns the resolution outcome, the client state after the call, and the
number of backend conversation-listing fetches issued. -/
def _resolve_channel (st : ClientState) (backend : List Char → List RawConv)
    (now : Nat) (channel : List Char) :
    Except (List Char) (List Char) × ClientState × Nat :=
  if startsWithIdLetter channel then (.ok channel, st, 0)
  else
    let channel1 := match channel with | '#' :: rest => rest | _ => channel
    match channel1 with
    | '@' :: username =>
      let r := get_conversations st backend now "im".data true
      (dmLoop username r.convs, r.state, r.fetches)
    | _ =>
      let r := get_conversations st backend now "public_channel,private_channel".data true
      (channelLoop channel1 r.convs, r.state, r.fetches)

/-- Resolution of the `@user` reference as claim C3 words it (a definition
following the specification, for comparison with `dmLoop`): each candidate
direct-message conversation's display name is first resolved through
`resolve_dm_name`, and the handle is matched case-insensitively as a
substring of that resolved name. -/
def dmLoopClaim (users : List User) (username : List Char) :
    List Conversation → Except (List Char) (List Char)
  | [] => .error ("Could not find DM with user: ".data ++ username)
  | c :: rest =>
    if containsSeq (pyLower (resolve_dm_name users c)) (pyLower username) then .ok c.id
    else dmLoopClaim users username rest

/-- Keyword parameters accepted by `SlackClient.get_unread_messages`
(slack_client.py 265: `def get_unread_messages(self, hours: int = 24)`). -/
def get_unread_messages_kw_params : List String := ["hours"]

/-- Keyword-argument names used at the call site in the `slack_unread`
branch of `_handle_tool` (mcp_server.py 361). -/
def slack_unread_call_kwargs : List String := ["hours", "max_dms", "max_channels"]

/-- Python call semantics: a call binds iff every keyword-argument name
is an accepted parameter name (no `**kwargs` in the signature). -/
def kwargsAccepted (params kwargs : List String) : Bool :=
  kwargs.all (fun k => params.contains k)

/-- Embedding of the `slack_unread` branch of `_handle_tool`
(mcp_server.py 355-378).  The argument values and what
`get_unread_messages` would render are parameters; the call raises
`TypeError` before the body can run whenever the keyword arguments do not
bind, which the embedding models as `Except.error`. -/
def handleSlackUnread (hours max_dms max_channels : Int)
    (unreadRender : String) : Except String String :=
  if kwargsAccepted get_unread_messages_kw_params slack_unread_call_kwargs then
    .ok unreadRender
  else
    .error "TypeError: get_unread_messages got an unexpected keyword argument max_dms"

/-- Embedding of the exception wrapper in `call_tool` (mcp_server.py 309-316):
a raised exception becomes a text result prefixed with `Error: `. -/
def callToolWrap (r : Except String String) : String :=
  match r with
  | .ok s => s
  | .error e => "Error: " ++ e

/-- The per-message body of the `get_messages` loop (slack_client.py
204-229): administrative subtypes are dropped, the author is resolved
through `get_user`, and `is_mention` checks for the caller's mention token
in the raw text.  The derived `timestamp` field is omitted (a pure function
of `ts`, unused by any claim). -/
def parseHistoryMsg (users : List User) (my_user_id channel_id : List Char)
    (msg : RawMsg) : Option Message :=
  if msg.subtype = some "channel_join".data ∨ msg.subtype = some "channel_leave".data ∨
      msg.subtype = some "bot_message".data then
    none
  else
    some
      { ts := msg.ts, text := msg.text, user_id := msg.user,
        user_name := msg.user.map (fun uid => (get_user users uid).real_name),
        channel_id := channel_id, thread_ts := msg.thread_ts,
        reply_count := msg.reply_count,
        is_mention := containsSeq msg.text ("<@".data ++ my_user_id ++ ">".data) }

/-- Embedding of `SlackClient.get_messages` (slack_client.py 183-231) as a
function of the backend `conversations_history` outcome: an error payload is
the Slack error code; `channel_not_found` degrades to an empty list, any
other error propagates. -/
def get_messages (users : List User) (my_user_id channel_id : List Char)
    (resp : Except (List Char) (List RawMsg)) : Except (List Char) (List Message) :=
  match resp with
  | .error e => if e = "channel_not_found".data then .ok [] else .error e
  | .ok msgs => .ok (msgs.filterMap (parseHistoryMsg users my_user_id channel_id))

/-- Embedding of `SlackClient.get_thread` (slack_client.py 233-263) as a
function of the backend `conversations_replies` outcome: any backend error
degrades to an empty list; replies are not subtype-filtered and carry the
requested `thread_ts`. -/
def get_thread (users : List User) (channel_id thread_ts : List Char)
    (resp : Except (List Char) (List RawMsg)) : Except (List Char) (List Message) :=
  match resp with
  | .error _ => .ok []
  | .ok msgs =>
    .ok (msgs.map (fun m =>
      { ts := m.ts, text := m.text, user_id := m.user,
        user_name := m.user.map (fun uid => (get_user users uid).real_name),
        channel_id := channel_id, thread_ts := some thread_ts }))

/-- Model of Python `str.strip()` (ASCII whitespace, both ends). -/
def pyStrip (s : List Char) : List Char :=
  ((s.dropWhile isPyWs).reverse.dropWhile isPyWs).reverse

/-- Model of Python `s.rsplit(' ', 1)[0]`: everything before the last space,
or the whole string when it has no space. -/
def rsplitSpaceLeft (s : List Char) : List Char :=
  if s.contains ' ' then ((s.reverse.dropWhile (fun c => c ≠ ' ')).tail).reverse
  else s

/-- The excerpt computation of `_maybe_add_reply_context` (slack_client.py
424-429): first 50 characters, trimmed back to a word boundary with `...`
appended when the text was longer, newlines replaced by spaces, stripped. -/
def excerpt50 (t : List Char) : List Char :=
  let context := t.take 50
  let context := if 50 < t.length then rsplitSpaceLeft context ++ "...".data else context
  let context := context.map (fun c => if c = '\n' then ' ' else c)
  pyStrip context

/-- The separator the source emits between the quoted excerpt and the reply
text (slack_client.py 430).  The file literally contains the three
characters `U+00E2 U+20AC U+201D` (a mojibake em dash), not `U+2014`. -/
def replySep : List Char := "â€”".data

/-- The prefixed outgoing text built at slack_client.py 430:
`Re: "<context>" <sep> <text>`. -/
def replyContextLine (context text : List Char) : List Char :=
  "Re: \"".data ++ context ++ "\" ".data ++ replySep ++ " ".data ++ text

/-- Location of the quoted message (slack_client.py 396-421): first in the
recent fetch, else the targeted single-message history fetch, whose outcome
(`none` covers both an exception and an empty page) is the `fetched`
parameter. -/
def locateOriginal (recent : List Message) (fetched : Option Message)
    (reply_to_ts : List Char) : Option Message :=
  match recent.find? (fun m => m.ts = reply_to_ts) with
  | some m => some m
  | none => fetched

/-- Embedding of `SlackClient._maybe_add_reply_context` (slack_client.py
384-432).  `recent` is the result of `get_messages(channel_id, limit=3)` and
`fetched` the result of the targeted fetch, both backend interactions passed
as parameters. -/
def _maybe_add_reply_context (recent : List Message) (fetched : Option Message)
    (reply_to_ts text : List Char) : List Char :=
  match recent with
  | [] => text
  | m0 :: _ =>
    if m0.ts = reply_to_ts then text
    else
      match locateOriginal recent fetched reply_to_ts with
      | some m => if m.text ≠ [] then replyContextLine (excerpt50 m.text) text else text
      | none => text

/-- The message-text transformation step of `send_message`
(slack_client.py 367-368). -/
def send_message_text (recent : List Message) (fetched : Option Message)
    (context_for_ts : Option (List Char)) (text : List Char) : List Char :=
  match context_for_ts with
  | some ts => _maybe_add_reply_context recent fetched ts text
  | none => text

/-- Fixture: the most recent message of the conversation. -/
def msgNewest : Message := { ts := "3".data, text := "newest".data, user_id := none }

/-- Fixture: an older message with empty text (e.g. an attachment-only
message), the quoted-reply target. -/
def msgEmptyQuoted : Message := { ts := "2".data, text := [], user_id := none }

/-- Fixture: an older message with the text `hello world`. -/
def msgHello : Message := { ts := "2".data, text := "hello world".data, user_id := none }

/-- Position matcher: the literal word `w` followed by one `\s` character
(the regex fragment `w\s` anchored at the current position). -/
def wordThenWsAt (w s : List Char) : Bool :=
  w.isPrefixOf s &&
    match s.drop w.length with
    | c :: _ => isPyWs c
    | [] => false

/-- Search semantics of the regex `\?$` (no MULTILINE): a `?` at the very
end of the string or immediately before one final newline. -/
def reEndsQ (t : List Char) : Bool :=
  "?".data.isSuffixOf t || "?\n".data.isSuffixOf t

/-- The auxiliary/modal verbs of the pattern
`^(can|could|would|will|do|does|did|is|are|have|has|should)\s`. -/
def startWords : List (List Char) :=
  (["can", "could", "would", "will", "do", "does", "did", "is", "are",
    "have", "has", "should"] : List String).map String.data

/-- Search semantics of `^(can|...|should)\s`: anchored at the start. -/
def reStartsAux (t : List Char) : Bool :=
  startWords.any (fun w => wordThenWsAt w t)

/-- Search semantics of `(please|pls)\s`. -/
def rePleaseWs (t : List Char) : Bool :=
  scanAny t (fun s => wordThenWsAt "please".data s || wordThenWsAt "pls".data s)

/-- At least one `\s` character, then `(you|your)` (equivalently the prefix
`you`). -/
def wsThenYou (s : List Char) : Bool :=
  match s with
  | c :: _ => isPyWs c && "you".data.isPrefixOf (s.dropWhile isPyWs)
  | [] => false

/-- Position matcher for `(need|needs)\s+(you|your)`: since `you` is a
prefix of `your` and `y` is not whitespace, greedy whitespace consumption is
exact. -/
def needYouAt (s : List Char) : Bool :=
  ("need".data.isPrefixOf s && wsThenYou (s.drop "need".data.length)) ||
    ("needs".data.isPrefixOf s && wsThenYou (s.drop "needs".data.length))

/-- Search semantics of `(need|needs)\s+(you|your)`. -/
def reNeedYou (t : List Char) : Bool :=
  scanAny t needYouAt

/-- Search semantics of `(review|check|look at|take a look)`. -/
def reReview (t : List Char) : Bool :=
  containsSeq t "review".data || containsSeq t "check".data ||
    containsSeq t "look at".data || containsSeq t "take a look".data

/-- Search semantics of `(thoughts|opinion|input|feedback)\?`. -/
def reThoughts (t : List Char) : Bool :=
  containsSeq t "thoughts?".data || containsSeq t "opinion?".data ||
    containsSeq t "input?".data || containsSeq t "feedback?".data

/-- Search semantics of `when (can|will|could)`. -/
def reWhen (t : List Char) : Bool :=
  containsSeq t "when can".data || containsSeq t "when will".data ||
    containsSeq t "when could".data

/-- Search semantics of `eta\??` (the optional `?` never affects whether a
match exists somewhere). -/
def reEta (t : List Char) : Bool :=
  containsSeq t "eta".data

/-- The `question_patterns` disjunction of `is_action_item`
(summarizer.py 45-58), applied to the lowered text. -/
def questionPatterns (t : List Char) : Bool :=
  reEndsQ t || reStartsAux t || rePleaseWs t || reNeedYou t ||
    reReview t || reThoughts t || reWhen t || reEta t

/-- Embedding of `is_action_item` (summarizer.py 36-60): the raw text must
contain the caller's mention token, and the lowered text must match one of
the heuristic patterns. -/
def is_action_item (text my_user_id : List Char) : Bool :=
  if !containsSeq text ("<@".data ++ my_user_id ++ ">".data) then false
  else questionPatterns (pyLower text)

/-- Claim C6's version of the pattern list (a definition following the
claim's words, for comparison): identical except that the first pattern is a
strict `ends with ?`, with no allowance for a trailing newline. -/
def is_action_item_claim (text my_user_id : List Char) : Bool :=
  containsSeq text ("<@".data ++ my_user_id ++ ">".data) &&
    (let t := pyLower text
     "?".data.isSuffixOf t || reStartsAux t || rePleaseWs t || reNeedYou t ||
       reReview t || reThoughts t || reWhen t || reEta t)

/-- Concrete backend fixture: one direct-message conversation, whatever the
requested types. -/
def bkIm : List Char → List RawConv :=
  fun _ => [{ id := "D1".data, is_im := true, user := some "U1".data }]

/-- Concrete direct-message conversation whose stored directory name is the
unresolved placeholder for user `U111`. -/
def dmConvFix : Conversation :=
  { id := "D1".data, name := "@user:U111".data, type := "dm".data }

/-- Concrete user table: `U111` resolves to the display name `Jen Rexford`. -/
def usersFix : List User :=
  [{ id := "U111".data, name := "jen".data, real_name := "Jen Rexford".data, is_bot := false }]

/-- The caller's mention token as embedded in raw Slack markup. -/
def mentionToken (my_user_id : List Char) : List Char :=
  "<@".data ++ my_user_id ++ ">".data

/-- Specification-level reading of `\?$`: the text ends with `?`, or with
`?` followed by one final newline. -/
def specEndsQ (t : List Char) : Prop :=
  "?".data <:+ t ∨ "?\n".data <:+ t

/-- Specification-level reading of `^(can|...|should)\s`. -/
def specStartsAux (t : List Char) : Prop :=
  ∃ w ∈ startWords, ∃ c, isPyWs c = true ∧ (w ++ [c]) <+: t

/-- Specification-level reading of `(please|pls)\s`. -/
def specPleaseWs (t : List Char) : Prop :=
  ∃ w ∈ [ "please".data, "pls".data ], ∃ c, isPyWs c = true ∧ (w ++ [c]) <:+: t

/-- Specification-level reading of `(need|needs)\s+(you|your)`. -/
def specNeedYou (t : List Char) : Prop :=
  ∃ w ∈ [ "need".data, "needs".data ],
    ∃ u, u ≠ [] ∧ (∀ c ∈ u, isPyWs c = true) ∧ (w ++ u ++ "you".data) <:+: t

/-- Specification-level reading of `(review|check|look at|take a look)`. -/
def specReview (t : List Char) : Prop :=
  ∃ w ∈ [ "review".data, "check".data, "look at".data, "take a look".data ], w <:+: t

/-- Specification-level reading of `(thoughts|opinion|input|feedback)\?`. -/
def specThoughts (t : List Char) : Prop :=
  ∃ w ∈ [ "thoughts?".data, "opinion?".data, "input?".data, "feedback?".data ], w <:+: t

/-- Specification-level reading of `when (can|will|could)`. -/
def specWhen (t : List Char) : Prop :=
  ∃ w ∈ [ "when can".data, "when will".data, "when could".data ], w <:+: t

/-- Specification-level reading of `eta\??`. -/
def specEta (t : List Char) : Prop :=
  "eta".data <:+: t

/-- The full heuristic disjunction of the amended claim C6. -/
def specPatterns (t : List Char) : Prop :=
  specEndsQ t ∨ specStartsAux t ∨ specPleaseWs t ∨ specNeedYou t ∨
    specReview t ∨ specThoughts t ∨ specWhen t ∨ specEta t

/-- Scanner state for `re.sub(r"<@\w+>", "@user", text)`. -/
inductive UserMentionState where
  | out
  | lt
  | word (buf : List Char)
deriving DecidableEq, Repr

/-- Deterministic realisation of `re.sub(r"<@\w+>", "@user", text)`
(summarizer.py 91).  The pattern has no backtracking freedom: after `<@` a
maximal `\w` run must be followed by `>`.  On failure the scan resumes after
the failing character; the characters consumed meanwhile (`@` and word
characters) can never start a new match, so no retry is lost. -/
def subUserMentionGo : UserMentionState → List Char → List Char
  | .out, [] => []
  | .lt, [] => ['<']
  | .word buf, [] => '<' :: '@' :: buf
  | .out, c :: rest =>
    if c = '<' then subUserMentionGo .lt rest
    else c :: subUserMentionGo .out rest
  | .lt, c :: rest =>
    if c = '@' then subUserMentionGo (.word []) rest
    else if c = '<' then '<' :: subUserMentionGo .lt rest
    else '<' :: c :: subUserMentionGo .out rest
  | .word buf, c :: rest =>
    if isWordChar c then subUserMentionGo (.word (buf ++ [c])) rest
    else if c = '>' ∧ buf ≠ [] then "@user".data ++ subUserMentionGo .out rest
    else if c = '<' then ('<' :: '@' :: buf) ++ subUserMentionGo .lt rest
    else ('<' :: '@' :: buf) ++ (c :: subUserMentionGo .out rest)

/-- `re.sub(r"<@\w+>", "@user", text)`. -/
def subUserMention (s : List Char) : List Char :=
  subUserMentionGo .out s

/-- Scanner state for `re.sub(r"<#\w+\|([^>]+)>", r"#\1", text)`. -/
inductive ChannelMentionState where
  | out
  | lt
  | hash (bufW : List Char)
  | lab (bufW bufL : List Char)
deriving DecidableEq, Repr

/-- Deterministic realisation of `re.sub(r"<#\w+\|([^>]+)>", r"#\1", text)`
(summarizer.py 93): `<#`, a nonempty maximal `\w` run, `|`, then a nonempty
label running to the first `>`.  Failure resumes after the failing character
(consumed `#`/word/`|` characters cannot start a match; a failure inside the
label happens only at end of input, where no later match can exist). -/
def subChannelMentionGo : ChannelMentionState → List Char → List Char
  | .out, [] => []
  | .lt, [] => ['<']
  | .hash bufW, [] => '<' :: '#' :: bufW
  | .lab bufW bufL, [] => ('<' :: '#' :: bufW) ++ ('|' :: bufL)
  | .out, c :: rest =>
    if c = '<' then subChannelMentionGo .lt rest
    else c :: subChannelMentionGo .out rest
  | .lt, c :: rest =>
    if c = '#' then subChannelMentionGo (.hash []) rest
    else if c = '<' then '<' :: subChannelMentionGo .lt rest
    else '<' :: c :: subChannelMentionGo .out rest
  | .hash bufW, c :: rest =>
    if isWordChar c then subChannelMentionGo (.hash (bufW ++ [c])) rest
    else if c = '|' ∧ bufW ≠ [] then subChannelMentionGo (.lab bufW []) rest
    else if c = '<' then ('<' :: '#' :: bufW) ++ subChannelMentionGo .lt rest
    else ('<' :: '#' :: bufW) ++ (c :: subChannelMentionGo .out rest)
  | .lab bufW bufL, c :: rest =>
    if c = '>' then
      if bufL = [] then ('<' :: '#' :: bufW) ++ ('|' :: '>' :: subChannelMentionGo .out rest)
      else ('#' :: bufL) ++ subChannelMentionGo .out rest
    else subChannelMentionGo (.lab bufW (bufL ++ [c])) rest

/-- `re.sub(r"<#\w+\|([^>]+)>", r"#\1", text)`. -/
def subChannelMention (s : List Char) : List Char :=
  subChannelMentionGo .out s

/-- Scanner state for `re.sub(r"<([^|>]+)\|([^>]+)>", r"\2", text)`. -/
inductive LinkLabelState where
  | out
  | body (buf1 : List Char)
  | lab (buf1 buf2 : List Char)
deriving DecidableEq, Repr

/-- Deterministic realisation of `re.sub(r"<([^|>]+)\|([^>]+)>", r"\2", text)`
(summarizer.py 95): `<`, a nonempty run free of `|`/`>`, `|`, then a
nonempty label running to the first `>`.  A failure (at `>`, at `|` with an
empty first group, or at end of input) emits the consumed text verbatim: any
`<` buffered inside the first group would stop at the same `|`/`>`/end and
fail identically, so no retry is lost. -/
def subLinkLabelGo : LinkLabelState → List Char → List Char
  | .out, [] => []
  | .body buf1, [] => '<' :: buf1
  | .lab buf1 buf2, [] => ('<' :: buf1) ++ ('|' :: buf2)
  | .out, c :: rest =>
    if c = '<' then subLinkLabelGo (.body []) rest
    else c :: subLinkLabelGo .out rest
  | .body buf1, c :: rest =>
    if c = '|' then
      if buf1 = [] then '<' :: '|' :: subLinkLabelGo .out rest
      else subLinkLabelGo (.lab buf1 []) rest
    else if c = '>' then ('<' :: buf1) ++ ('>' :: subLinkLabelGo .out rest)
    else subLinkLabelGo (.body (buf1 ++ [c])) rest
  | .lab buf1 buf2, c :: rest =>
    if c = '>' then
      if buf2 = [] then ('<' :: buf1) ++ ('|' :: '>' :: subLinkLabelGo .out rest)
      else buf2 ++ subLinkLabelGo .out rest
    else subLinkLabelGo (.lab buf1 (buf2 ++ [c])) rest

/-- `re.sub(r"<([^|>]+)\|([^>]+)>", r"\2", text)`. -/
def subLinkLabel (s : List Char) : List Char :=
  subLinkLabelGo .out s

/-- Deterministic realisation of `re.sub(r"<([^>]+)>", r"\1", text)`
(summarizer.py 96): `<`, then a nonempty run to the first `>`.  The buffer
may contain further `<`; the regex consumes them inside the match. -/
def subAngleGo : Option (List Char) → List Char → List Char
  | none, [] => []
  | some buf, [] => '<' :: buf
  | none, c :: rest =>
    if c = '<' then subAngleGo (some []) rest
    else c :: subAngleGo none rest
  | some buf, c :: rest =>
    if c = '>' then
      if buf = [] then '<' :: '>' :: subAngleGo none rest
      else buf ++ subAngleGo none rest
    else subAngleGo (some (buf ++ [c])) rest

/-- `re.sub(r"<([^>]+)>", r"\1", text)`. -/
def subAngle (s : List Char) : List Char :=
  subAngleGo none s

/-- Realisation of `" ".join(text.split())` (summarizer.py 98): drop all
leading/trailing whitespace and replace every internal whitespace run by a
single space.  `started` records whether a word character was emitted,
`pending` whether a separator is owed before the next word character. -/
def collapseGo (started pending : Bool) : List Char → List Char
  | [] => []
  | c :: rest =>
    if isPyWs c then collapseGo started started rest
    else if pending then ' ' :: c :: collapseGo true false rest
    else c :: collapseGo true false rest

/-- `" ".join(text.split())`. -/
def collapse (s : List Char) : List Char :=
  collapseGo false false s

/-- The markup rewrite + whitespace collapse of `truncate_text`
(summarizer.py 91-98), in source order. -/
def rewriteMarkup (s : List Char) : List Char :=
  collapse (subAngle (subLinkLabel (subChannelMention (subUserMention s))))

/-- Python prefix slicing `s[:k]` with the negative-index convention:
a negative `k` counts from the end, clamped at zero. -/
def pySlicePre (s : List Char) (k : Int) : List Char :=
  if 0 ≤ k then s.take k.toNat else s.take ((s.length : Int) + k).toNat

/-- Embedding of `truncate_text` (summarizer.py 88-102).  `max_len` is an
integer because `text[:max_len - 3]` follows Python slice semantics, which
differ from saturating subtraction when `max_len < 3`. -/
def truncate_text (s : List Char) (max_len : Int) : List Char :=
  let t := rewriteMarkup s
  if (t.length : Int) ≤ max_len then t
  else pySlicePre t (max_len - 3) ++ "...".data

/-- Collapsed-form invariant, inner part: whitespace occurs only as single
spaces followed by a non-whitespace character, and never at the end. -/
def coreOk : List Char → Bool
  | [] => true
  | [c] => !isPyWs c
  | c :: d :: rest =>
    if isPyWs c then ((c == ' ') && !isPyWs d) && coreOk (d :: rest)
    else coreOk (d :: rest)

/-- Collapsed-form invariant, leading part: no leading whitespace. -/
def headNotWsOk : List Char → Bool
  | [] => true
  | c :: _ => !isPyWs c

/-- A string is in collapsed form when `" ".join(s.split()) = s`. -/
def isCollapsed (s : List Char) : Bool :=
  coreOk s && headNotWsOk s

/- ====================  Lemmas and claim theorems  ==================== -/

/-- C9: conversation-kind classification is deterministic (a function) and
total: every attribute record maps to exactly one of the four kinds
dm / mpim / group / channel, and when several flags are set the precedence
is `is_im` over `is_mpim` over `is_private` over the channel default. -/
theorem c9_classification_total_precedence (conv : RawConv) :
    (_get_conversation_type conv = "dm".data ∨
     _get_conversation_type conv = "mpim".data ∨
     _get_conversation_type conv = "group".data ∨
     _get_conversation_type conv = "channel".data) ∧
    (conv.is_im = true → _get_conversation_type conv = "dm".data) ∧
    (conv.is_im = false → conv.is_mpim = true →
      _get_conversation_type conv = "mpim".data) ∧
    (conv.is_im = false → conv.is_mpim = false → conv.is_private = true →
      _get_conversation_type conv = "group".data) ∧
    (conv.is_im = false → conv.is_mpim = false → conv.is_private = false →
      _get_conversation_type conv = "channel".data) := by
  unfold _get_conversation_type
  rcases conv with ⟨id, name, im, mp, pr, u, m, a, uc, lr⟩
  cases im <;> cases mp <;> cases pr <;> simp

/-- C9 witness: the precedence implications discharged on a record with all
three flags set, which classifies as a direct message. -/
theorem c9_witness :
    _get_conversation_type
      { id := "X".data, name := "x".data,
        is_im := true, is_mpim := true, is_private := true } = "dm".data :=
  (c9_classification_total_precedence _).2.1 rfl

/-- C2: every invocation of the `slack_unread` tool passes keyword arguments
`max_dms` and `max_channels` that `get_unread_messages` does not accept, so
the call raises `TypeError`; `call_tool` converts this into an `Error: ...`
text result, and the operation never returns the rendered unread messages,
whatever the argument values are. -/
theorem c2_slack_unread_always_type_error
    (hours max_dms max_channels : Int) (unreadRender : String) :
    kwargsAccepted get_unread_messages_kw_params slack_unread_call_kwargs = false ∧
    callToolWrap (handleSlackUnread hours max_dms max_channels unreadRender) =
      "Error: TypeError: get_unread_messages got an unexpected keyword argument max_dms" ∧
    ∀ s, handleSlackUnread hours max_dms max_channels unreadRender ≠ .ok s := by
  refine ⟨by decide, ?_, ?_⟩
  · simp [callToolWrap, handleSlackUnread, kwargsAccepted,
      get_unread_messages_kw_params, slack_unread_call_kwargs]
  · intro s
    simp [handleSlackUnread, kwargsAccepted,
      get_unread_messages_kw_params, slack_unread_call_kwargs]

/-- C2 witness: the default argument values (24 hours, 15 DMs, 15 channels)
produce the error text, never the rendered unread report. -/
theorem c2_witness :
    callToolWrap (handleSlackUnread 24 15 15 "unread report") =
      "Error: TypeError: get_unread_messages got an unexpected keyword argument max_dms" :=
  (c2_slack_unread_always_type_error 24 15 15 "unread report").2.1

/-- C5: a backend `channel_not_found` error makes `get_messages` yield an
empty message sequence rather than propagate; any other backend error
propagates to the caller; and `get_thread` yields an empty sequence on every
backend error. -/
theorem c5_history_and_thread_error_handling
    (users : List User) (my_user_id channel_id thread_ts : List Char) :
    (get_messages users my_user_id channel_id (.error "channel_not_found".data) = .ok []) ∧
    (∀ e : List Char, e ≠ "channel_not_found".data →
       get_messages users my_user_id channel_id (.error e) = .error e) ∧
    (∀ e : List Char, get_thread users channel_id thread_ts (.error e) = .ok []) := by
  refine ⟨by simp [get_messages], ?_, fun e => rfl⟩
  intro e he
  simp [get_messages, he]

/-- C5 witness: the three error behaviours evaluated at the concrete error
codes `channel_not_found` and `ratelimited`. -/
theorem c5_witness :
    ("ratelimited".data ≠ "channel_not_found".data) ∧
    (get_messages [] "U1".data "C1".data (.error "channel_not_found".data) = .ok []) ∧
    (get_messages [] "U1".data "C1".data (.error "ratelimited".data) =
      .error "ratelimited".data) ∧
    (get_thread [] "C1".data "1.0".data (.error "ratelimited".data) = .ok []) :=
  ⟨by decide,
    (c5_history_and_thread_error_handling [] "U1".data "C1".data "1.0".data).1,
    (c5_history_and_thread_error_handling [] "U1".data "C1".data "1.0".data).2.1
      "ratelimited".data (by decide),
    (c5_history_and_thread_error_handling [] "U1".data "C1".data "1.0".data).2.2
      "ratelimited".data⟩

/-- C4 counterexample: replying to message `2`, which is located among the
recent messages and is *not* the most recent, produces the outgoing text
unmodified, because the quoted message's text is empty — whereas the claim
requires every reply to a non-most-recent message to be prefixed with
`Re: "<excerpt>" — `.  (Independently, the prefix the code does emit for
nonempty quotes uses the source's literal three-character separator, not an
em dash.) -/
theorem c4_counterexample :
    ([msgNewest, msgEmptyQuoted].find? (fun m => m.ts = "2".data) = some msgEmptyQuoted) ∧
    _maybe_add_reply_context [msgNewest, msgEmptyQuoted] none "2".data "hi".data
      = "hi".data ∧
    ¬ ("Re: ".data.isPrefixOf
        (_maybe_add_reply_context [msgNewest, msgEmptyQuoted] none "2".data "hi".data)) := by
  refine ⟨by decide, by decide, by decide⟩

/-- C4 (amended): for every send with a quoted-reply id: if the quoted
message is the most recent among the fetched recent messages, the outgoing
text is unmodified; if it is not the most recent and is located (in the
recent fetch or via the targeted fetch) with nonempty text, the outgoing
text becomes `Re: "<excerpt>" <sep> <text>` where the excerpt is the first
50 characters trimmed to a word boundary (`...` appended when cut) with
newlines collapsed, and `<sep>` is the source's literal `U+00E2 U+20AC U+201D`
sequence; failure to locate the quoted message — or an empty quoted text —
is non-fatal and the send proceeds with the text unmodified. -/
theorem c4_reply_context_behaviour
    (recent : List Message) (fetched : Option Message) (m0 : Message)
    (rest : List Message) (reply_to_ts text : List Char) :
    (_maybe_add_reply_context [] fetched reply_to_ts text = text) ∧
    (recent = m0 :: rest → m0.ts = reply_to_ts →
       _maybe_add_reply_context recent fetched reply_to_ts text = text) ∧
    (recent = m0 :: rest → m0.ts ≠ reply_to_ts →
       ∀ m, locateOriginal recent fetched reply_to_ts = some m → m.text ≠ [] →
         _maybe_add_reply_context recent fetched reply_to_ts text =
           replyContextLine (excerpt50 m.text) text) ∧
    (recent = m0 :: rest → m0.ts ≠ reply_to_ts →
       locateOriginal recent fetched reply_to_ts = none →
       _maybe_add_reply_context recent fetched reply_to_ts text = text) ∧
    (recent = m0 :: rest → m0.ts ≠ reply_to_ts →
       ∀ m, locateOriginal recent fetched reply_to_ts = some m → m.text = [] →
         _maybe_add_reply_context recent fetched reply_to_ts text = text) := by
  refine ⟨rfl, ?_, ?_, ?_, ?_⟩
  · rintro rfl h
    simp [_maybe_add_reply_context, h]
  · rintro rfl h m hm hne
    simp [_maybe_add_reply_context, h, hm, hne]
  · rintro rfl h hm
    simp [_maybe_add_reply_context, h, hm]
  · rintro rfl h m hm hempty
    simp [_maybe_add_reply_context, h, hm, hempty]

/-- C4 witness: replying to the non-most-recent `hello world` message
produces exactly the source's prefixed text. -/
theorem c4_witness :
    (msgNewest.ts ≠ "2".data) ∧
    locateOriginal [msgNewest, msgHello] none "2".data = some msgHello ∧
    msgHello.text ≠ [] ∧
    _maybe_add_reply_context [msgNewest, msgHello] none "2".data "hi".data =
      replyContextLine (excerpt50 "hello world".data) "hi".data :=
  ⟨by decide, by decide, by decide,
    (c4_reply_context_behaviour [msgNewest, msgHello] none msgNewest [msgHello]
        "2".data "hi".data).2.2.1 rfl (by decide) msgHello (by decide) (by decide)⟩

/-- C1 counterexample: two `get_conversations` calls with the subset filter
`types="im"` on a fresh client, ten (model) seconds apart — well inside the
300-second window — issue two backend fetches, not at most one: a
subset-typed fetch queries only the requested kinds and never refreshes the
cache, contradicting the claim that a fetch always retrieves and caches the
full superset. -/
theorem c1_counterexample :
    ¬ ((get_conversations ⟨none, 0⟩ bkIm 0 "im".data true).fetches +
       (get_conversations (get_conversations ⟨none, 0⟩ bkIm 0 "im".data true).state
          bkIm 10 "im".data true).fetches ≤ 1) := by
  decide

/-- C1 (amended): when the cache-filling first call requests the full
superset (the default `types`) and the backend listing is nonempty, the
fetch refreshes the cache, and a second call within the 300-second window
with any kind filter issues no backend fetch and is served by filtering the
cached superset client-side — one fetch in total.  A subset-typed call
fetches only the requested kinds from the backend and never refreshes the
cache. -/
theorem c1_superset_call_caches_and_second_call_filters
    (backend : List Char → List RawConv) (types2 : List Char) (now1 now2 : Nat)
    (hne : backend defaultConvTypes ≠ []) (hfresh : now2 - now1 < 300) :
    (get_conversations ⟨none, 0⟩ backend now1 defaultConvTypes true).fetches = 1 ∧
    (get_conversations (get_conversations ⟨none, 0⟩ backend now1 defaultConvTypes true).state
        backend now2 types2 true).fetches = 0 ∧
    (get_conversations (get_conversations ⟨none, 0⟩ backend now1 defaultConvTypes true).state
        backend now2 types2 true).convs =
      (get_conversations ⟨none, 0⟩ backend now1 defaultConvTypes true).convs.filter
        (fun c => (allowedKinds types2).contains c.type) := by
  have h1 : get_conversations ⟨none, 0⟩ backend now1 defaultConvTypes true =
      ⟨(backend defaultConvTypes).map convFromRaw,
        ⟨some ((backend defaultConvTypes).map convFromRaw), now1⟩, 1⟩ := by
    simp [get_conversations, getConversationsFetch]
  have hmapne : (backend defaultConvTypes).map convFromRaw ≠ [] := by
    simpa using hne
  rw [h1]
  simp [get_conversations, hmapne, hfresh]

/-- C1 witness: the amended cache behaviour evaluated on the concrete
one-conversation backend with the second call filtered to `im`. -/
theorem c1_witness :
    bkIm defaultConvTypes ≠ [] ∧ 10 - 0 < 300 ∧
    ((get_conversations ⟨none, 0⟩ bkIm 0 defaultConvTypes true).fetches = 1 ∧
     (get_conversations (get_conversations ⟨none, 0⟩ bkIm 0 defaultConvTypes true).state
         bkIm 10 "im".data true).fetches = 0 ∧
     (get_conversations (get_conversations ⟨none, 0⟩ bkIm 0 defaultConvTypes true).state
         bkIm 10 "im".data true).convs =
       (get_conversations ⟨none, 0⟩ bkIm 0 defaultConvTypes true).convs.filter
         (fun c => (allowedKinds "im".data).contains c.type)) :=
  ⟨by decide, by decide,
    c1_superset_call_caches_and_second_call_filters bkIm "im".data 0 10
      (by decide) (by decide)⟩

/-- C3 counterexample: resolving `@jen` against a cached direct-message
directory containing exactly one DM whose resolved display name is
`Jen Rexford` fails with a resolution error, while the claimed behaviour
(matching the handle against the resolved display name) would return `D1`:
the code matches against the stored placeholder name `@user:U111` and never
resolves candidate display names. -/
theorem c3_counterexample :
    (_resolve_channel ⟨some [dmConvFix], 5⟩ (fun _ => []) 10 "@jen".data).1 =
      .error ("Could not find DM with user: jen".data) ∧
    dmLoopClaim usersFix "jen".data [dmConvFix] = .ok "D1".data := by
  constructor
  · decide
  · decide

/-- The first-match loop of the `@user` branch, characterised through
`List.find?`. -/
theorem dmLoop_eq_find (username : List Char) (convs : List Conversation) :
    dmLoop username convs =
      match convs.find? (fun c => containsSeq (pyLower c.name) (pyLower username)) with
      | some c => .ok c.id
      | none => .error ("Could not find DM with user: ".data ++ username) := by
  induction convs with
  | nil => rfl
  | cons d rest ih =>
    by_cases hd : containsSeq (pyLower d.name) (pyLower username) = true
    · simp [dmLoop, List.find?_cons, hd]
    · have hd' : containsSeq (pyLower d.name) (pyLower username) = false := by
        simpa using hd
      simp [dmLoop, List.find?_cons, hd', ih]

/-- C3 (amended): for every reference string prefixed with `@`,
`_resolve_channel` searches only direct-message conversations and matches
the requested handle case-insensitively as a substring against each
candidate's *stored directory name* (for an unresolved DM the placeholder
`@user:<id>`), not against the resolved display name; the first matching
conversation's id is returned, and if no candidate matches, a resolution
failure is raised naming the searched-for user. -/
theorem c3_resolve_at_matches_stored_name
    (st : ClientState) (backend : List Char → List RawConv) (now : Nat)
    (username : List Char) (convs : List Conversation) :
    ((_resolve_channel st backend now ('@' :: username)).1 =
       dmLoop username (get_conversations st backend now "im".data true).convs) ∧
    (∀ c, convs.find? (fun c => containsSeq (pyLower c.name) (pyLower username)) = some c →
       dmLoop username convs = .ok c.id) ∧
    (convs.find? (fun c => containsSeq (pyLower c.name) (pyLower username)) = none →
       dmLoop username convs = .error ("Could not find DM with user: ".data ++ username)) := by
  refine ⟨rfl, ?_, ?_⟩
  · intro c h
    rw [dmLoop_eq_find, h]
  · intro h
    rw [dmLoop_eq_find, h]

/-- C3 witness: the amended resolution applied to a handle that does occur
in the stored placeholder name. -/
theorem c3_witness :
    ([dmConvFix].find?
        (fun c => containsSeq (pyLower c.name) (pyLower "user".data)) = some dmConvFix) ∧
    dmLoop "user".data [dmConvFix] = .ok "D1".data :=
  ⟨by decide,
    (c3_resolve_at_matches_stored_name ⟨none, 0⟩ (fun _ => []) 0 "user".data
        [dmConvFix]).2.1 dmConvFix (by decide)⟩

/-- C10: every reference whose first character is `C`, `D` or `G` is returned
unchanged by `_resolve_channel`, with no conversation-directory query and no
backend fetch, and the client state untouched: such strings are treated as
already-resolved ids and never looked up by name. -/
theorem c10_id_passthrough
    (st : ClientState) (backend : List Char → List RawConv) (now : Nat)
    (channel : List Char) (h : startsWithIdLetter channel = true) :
    _resolve_channel st backend now channel = (.ok channel, st, 0) := by
  simp [_resolve_channel, h]

/-- C10 witness: the passthrough evaluated on the name-like string `General`
(first letter `G`), which is returned as if it were an id, with zero fetches. -/
theorem c10_witness :
    startsWithIdLetter "General".data = true ∧
    _resolve_channel ⟨none, 0⟩ (fun _ => []) 0 "General".data =
      (.ok "General".data, ⟨none, 0⟩, 0) :=
  ⟨by decide, c10_id_passthrough ⟨none, 0⟩ (fun _ => []) 0 "General".data (by decide)⟩

/-- Substring scanning agrees with `List.IsInfix`. -/
theorem containsSeq_infix_iff (s pat : List Char) :
    containsSeq s pat = true ↔ pat <:+: s := by
  induction s with
  | nil => simp [containsSeq, List.isEmpty_iff]
  | cons c r ih =>
    simp [containsSeq, List.infix_cons_iff, List.isPrefixOf_iff_prefix, ih,
      Bool.or_eq_true]

/-- `scanAny` finds a position matching `p` iff some suffix satisfies `p`. -/
theorem scanAny_iff (s : List Char) (p : List Char → Bool) :
    scanAny s p = true ↔ ∃ b, b <:+ s ∧ p b = true := by
  induction s with
  | nil =>
    simp only [scanAny, Bool.or_eq_true]
    constructor
    · intro h
      rcases h with h | h
      · exact ⟨[], List.suffix_refl [], h⟩
      · exact absurd h (by simp)
    · rintro ⟨b, hb, hp⟩
      rw [List.suffix_nil.mp hb] at hp
      exact Or.inl hp
  | cons c r ih =>
    simp only [scanAny, Bool.or_eq_true, ih]
    constructor
    · rintro (h | ⟨b, hb, hp⟩)
      · exact ⟨c :: r, List.suffix_refl _, h⟩
      · exact ⟨b, hb.trans (List.suffix_cons c r), hp⟩
    · rintro ⟨b, hb, hp⟩
      rcases List.suffix_cons_iff.mp hb with rfl | hb
      · exact Or.inl hp
      · exact Or.inr ⟨b, hb, hp⟩

/-- `wordThenWsAt` characterised: the word, then one whitespace char, as a
prefix. -/
theorem wordThenWsAt_iff (w s : List Char) :
    wordThenWsAt w s = true ↔ ∃ c, isPyWs c = true ∧ (w ++ [c]) <+: s := by
  unfold wordThenWsAt
  rw [Bool.and_eq_true]
  constructor
  · rintro ⟨h1, h2⟩
    obtain ⟨t, rfl⟩ := List.isPrefixOf_iff_prefix.mp h1
    rw [List.drop_left] at h2
    cases t with
    | nil => exact absurd h2 (by simp)
    | cons c r =>
      exact ⟨c, h2, ⟨r, by rw [List.append_assoc, List.singleton_append]⟩⟩
  · rintro ⟨c, hc, t, rfl⟩
    have hw : w <+: w ++ [c] ++ t :=
      ⟨[c] ++ t, by rw [List.append_assoc]⟩
    refine ⟨List.isPrefixOf_iff_prefix.mpr hw, ?_⟩
    have hd : (w ++ [c] ++ t).drop w.length = c :: t := by
      rw [List.append_assoc, List.drop_left, List.singleton_append]
    rw [hd]
    exact hc

/-- `wsThenYou` characterised: a nonempty whitespace run, then `you`, as a
prefix. -/
theorem wsThenYou_iff (s : List Char) :
    wsThenYou s = true ↔
      ∃ u, u ≠ [] ∧ (∀ c ∈ u, isPyWs c = true) ∧ (u ++ "you".data) <+: s := by
  constructor
  · intro h
    cases s with
    | nil => exact absurd h (by simp [wsThenYou])
    | cons c r =>
      rw [wsThenYou, Bool.and_eq_true] at h
      obtain ⟨hc, hyou⟩ := h
      obtain ⟨t, ht⟩ := List.isPrefixOf_iff_prefix.mp hyou
      refine ⟨(c :: r).takeWhile isPyWs, ?_, ?_, ?_⟩
      · rw [List.takeWhile_cons_of_pos hc]; simp
      · intro x hx; exact List.mem_takeWhile_imp hx
      · refine ⟨t, ?_⟩
        rw [List.append_assoc, ht, List.takeWhile_append_dropWhile]
  · rintro ⟨u, hne, hws, t, ht⟩
    cases u with
    | nil => exact absurd rfl hne
    | cons d u' =>
      have hd : isPyWs d = true := hws d (by simp)
      have hs : s = d :: (u' ++ ("you".data ++ t)) := by
        rw [← ht]; simp
      rw [hs, wsThenYou, Bool.and_eq_true]
      refine ⟨hd, ?_⟩
      rw [List.dropWhile_cons_of_pos hd]
      have hdrop : (u' ++ ("you".data ++ t)).dropWhile isPyWs = "you".data ++ t := by
        rw [List.dropWhile_append]
        have hu' : u'.dropWhile isPyWs = [] := by
          rw [List.dropWhile_eq_nil_iff]
          intro x hx; exact hws x (by simp [hx])
        rw [hu']
        simp [List.dropWhile_cons_of_neg (by decide : ¬ isPyWs 'y' = true)]
      rw [hdrop]
      exact List.isPrefixOf_iff_prefix.mpr ⟨t, rfl⟩

/-- One `(w)\s+you` alternative characterised as a prefix property. -/
theorem wordWsYou_iff (w s : List Char) :
    (w.isPrefixOf s && wsThenYou (s.drop w.length)) = true ↔
      ∃ u, u ≠ [] ∧ (∀ c ∈ u, isPyWs c = true) ∧ (w ++ u ++ "you".data) <+: s := by
  rw [Bool.and_eq_true]
  constructor
  · rintro ⟨h1, h2⟩
    obtain ⟨t, rfl⟩ := List.isPrefixOf_iff_prefix.mp h1
    rw [List.drop_left] at h2
    obtain ⟨u, hne, hws, t2, ht2⟩ := (wsThenYou_iff t).mp h2
    refine ⟨u, hne, hws, t2, ?_⟩
    rw [List.append_assoc w u, List.append_assoc, ht2]
  · rintro ⟨u, hne, hws, t, ht⟩
    have hs : w ++ u ++ "you".data ++ t = w ++ ((u ++ "you".data) ++ t) := by
      simp [List.append_assoc]
    rw [← ht, hs]
    refine ⟨List.isPrefixOf_iff_prefix.mpr ⟨_, rfl⟩, ?_⟩
    rw [List.drop_left]
    exact (wsThenYou_iff _).mpr ⟨u, hne, hws, t, rfl⟩

/-- The `\?$` matcher agrees with its specification-level reading. -/
theorem reEndsQ_iff (t : List Char) : reEndsQ t = true ↔ specEndsQ t := by
  unfold reEndsQ specEndsQ
  rw [Bool.or_eq_true, List.isSuffixOf_iff_suffix, List.isSuffixOf_iff_suffix]

/-- The anchored auxiliary-verb matcher agrees with its reading. -/
theorem reStartsAux_iff (t : List Char) : reStartsAux t = true ↔ specStartsAux t := by
  unfold reStartsAux specStartsAux
  rw [List.any_eq_true]
  constructor
  · rintro ⟨w, hw, hm⟩; exact ⟨w, hw, (wordThenWsAt_iff w t).mp hm⟩
  · rintro ⟨w, hw, hm⟩; exact ⟨w, hw, (wordThenWsAt_iff w t).mpr hm⟩

/-- The `(please|pls)\s` matcher agrees with its reading. -/
theorem rePleaseWs_iff (t : List Char) : rePleaseWs t = true ↔ specPleaseWs t := by
  unfold rePleaseWs specPleaseWs
  rw [scanAny_iff]
  constructor
  · rintro ⟨b, hb, hp⟩
    rw [Bool.or_eq_true] at hp
    rcases hp with hp | hp
    · obtain ⟨c, hc, hpre⟩ := (wordThenWsAt_iff _ b).mp hp
      exact ⟨"please".data, by simp, c, hc,
        List.infix_iff_prefix_suffix.mpr ⟨b, hpre, hb⟩⟩
    · obtain ⟨c, hc, hpre⟩ := (wordThenWsAt_iff _ b).mp hp
      exact ⟨"pls".data, by simp, c, hc,
        List.infix_iff_prefix_suffix.mpr ⟨b, hpre, hb⟩⟩
  · rintro ⟨w, hw, c, hc, hinf⟩
    obtain ⟨b, hpre, hb⟩ := List.infix_iff_prefix_suffix.mp hinf
    simp only [List.mem_cons, List.not_mem_nil, or_false] at hw
    rcases hw with rfl | rfl
    · refine ⟨b, hb, ?_⟩
      rw [Bool.or_eq_true]
      exact Or.inl ((wordThenWsAt_iff _ b).mpr ⟨c, hc, hpre⟩)
    · refine ⟨b, hb, ?_⟩
      rw [Bool.or_eq_true]
      exact Or.inr ((wordThenWsAt_iff _ b).mpr ⟨c, hc, hpre⟩)

/-- The `(need|needs)\s+(you|your)` matcher agrees with its reading. -/
theorem reNeedYou_iff (t : List Char) : reNeedYou t = true ↔ specNeedYou t := by
  unfold reNeedYou specNeedYou
  rw [scanAny_iff]
  constructor
  · rintro ⟨b, hb, hp⟩
    rw [needYouAt, Bool.or_eq_true] at hp
    rcases hp with hp | hp
    · obtain ⟨u, hne, hws, hpre⟩ := (wordWsYou_iff _ b).mp hp
      exact ⟨"need".data, by simp, u, hne, hws,
        List.infix_iff_prefix_suffix.mpr ⟨b, hpre, hb⟩⟩
    · obtain ⟨u, hne, hws, hpre⟩ := (wordWsYou_iff _ b).mp hp
      exact ⟨"needs".data, by simp, u, hne, hws,
        List.infix_iff_prefix_suffix.mpr ⟨b, hpre, hb⟩⟩
  · rintro ⟨w, hw, u, hne, hws, hinf⟩
    obtain ⟨b, hpre, hb⟩ := List.infix_iff_prefix_suffix.mp hinf
    simp only [List.mem_cons, List.not_mem_nil, or_false] at hw
    rcases hw with rfl | rfl
    · refine ⟨b, hb, ?_⟩
      rw [needYouAt, Bool.or_eq_true]
      exact Or.inl ((wordWsYou_iff _ b).mpr ⟨u, hne, hws, hpre⟩)
    · refine ⟨b, hb, ?_⟩
      rw [needYouAt, Bool.or_eq_true]
      exact Or.inr ((wordWsYou_iff _ b).mpr ⟨u, hne, hws, hpre⟩)

/-- The `(review|check|look at|take a look)` matcher agrees with its reading. -/
theorem reReview_iff (t : List Char) : reReview t = true ↔ specReview t := by
  unfold reReview specReview
  simp only [Bool.or_eq_true, containsSeq_infix_iff, List.mem_cons,
    List.not_mem_nil, or_false, exists_eq_or_imp, exists_eq_left]
  tauto

/-- The `(thoughts|opinion|input|feedback)\?` matcher agrees with its reading. -/
theorem reThoughts_iff (t : List Char) : reThoughts t = true ↔ specThoughts t := by
  unfold reThoughts specThoughts
  simp only [Bool.or_eq_true, containsSeq_infix_iff, List.mem_cons,
    List.not_mem_nil, or_false, exists_eq_or_imp, exists_eq_left]
  tauto

/-- The `when (can|will|could)` matcher agrees with its reading. -/
theorem reWhen_iff (t : List Char) : reWhen t = true ↔ specWhen t := by
  unfold reWhen specWhen
  simp only [Bool.or_eq_true, containsSeq_infix_iff, List.mem_cons,
    List.not_mem_nil, or_false, exists_eq_or_imp, exists_eq_left]
  tauto

/-- The `eta\??` matcher agrees with its reading. -/
theorem reEta_iff (t : List Char) : reEta t = true ↔ specEta t :=
  containsSeq_infix_iff t "eta".data

/-- The eight Boolean pattern matchers agree with the claim-level
disjunction. -/
theorem questionPatterns_iff (t : List Char) :
    questionPatterns t = true ↔ specPatterns t := by
  unfold questionPatterns specPatterns
  simp only [Bool.or_eq_true, reEndsQ_iff, reStartsAux_iff, rePleaseWs_iff,
    reNeedYou_iff, reReview_iff, reThoughts_iff, reWhen_iff, reEta_iff]
  tauto

/-- `is_action_item` as a conjunction of mention test and pattern test. -/
theorem is_action_item_eq (text my_user_id : List Char) :
    is_action_item text my_user_id =
      (containsSeq text (mentionToken my_user_id) &&
        questionPatterns (pyLower text)) := by
  rw [is_action_item, mentionToken]
  cases h : containsSeq text ("<@".data ++ my_user_id ++ ">".data) <;> simp [h]

/-- C6 counterexample: the message `<@U1> ok?` followed by a trailing
newline is classified as an action item by the code (the regex `\?$` also
matches a `?` right before one final newline), while under the claim's
pattern list — which requires the text to end with `?` — it is not. -/
theorem c6_counterexample :
    is_action_item "<@U1> ok?\n".data "U1".data = true ∧
    is_action_item_claim "<@U1> ok?\n".data "U1".data = false := by
  constructor
  · decide
  · decide

/-- C6 (amended): a message is an action item iff its raw text embeds the
caller's mention token and its lowered text matches at least one heuristic
pattern, where the first pattern is `ends with ?, optionally followed by one
trailing newline` and the remaining patterns are as the claim states them;
consequently the classification is a pure function of the pair, and a
message with no embedded self-mention is never classified as an action item
regardless of phrasing. -/
theorem c6_action_item_characterisation (text my_user_id : List Char) :
    (is_action_item text my_user_id = true ↔
       (mentionToken my_user_id <:+: text ∧ specPatterns (pyLower text))) ∧
    (¬ mentionToken my_user_id <:+: text → is_action_item text my_user_id = false) := by
  constructor
  · rw [is_action_item_eq, Bool.and_eq_true, containsSeq_infix_iff,
      questionPatterns_iff]
  · intro hno
    rw [is_action_item_eq]
    cases h : containsSeq text (mentionToken my_user_id) with
    | false => simp
    | true => exact absurd ((containsSeq_infix_iff text _).mp h) hno

/-- C6 witness: `hello team` contains no self-mention and is therefore not
an action item. -/
theorem c6_witness : is_action_item "hello team".data "U1".data = false :=
  (c6_action_item_characterisation "hello team".data "U1".data).2 (by decide)

/-- `collapseGo` always produces output in `coreOk` form, and from the
initial state the output additionally starts with a non-whitespace
character, if any. -/
theorem collapseGo_invariant (s : List Char) :
    coreOk (collapseGo true false s) = true ∧
    coreOk (collapseGo true true s) = true ∧
    coreOk (collapseGo false false s) = true ∧
    headNotWsOk (collapseGo false false s) = true := by
  induction s with
  | nil => exact ⟨rfl, rfl, rfl, rfl⟩
  | cons c rest ih =>
    obtain ⟨ih1, ih2, ih3, ih4⟩ := ih
    by_cases hws : isPyWs c = true
    · refine ⟨?_, ?_, ?_, ?_⟩ <;> simp [collapseGo, hws, ih1, ih2, ih3, ih4]
    · have hws' : isPyWs c = false := by simpa using hws
      have hcore : ∀ x, coreOk x = true → coreOk (c :: x) = true := by
        intro x hx
        cases x with
        | nil => simp [coreOk, hws']
        | cons d t => simp [coreOk, hws', hx]
      have hspace : isPyWs ' ' = true := by decide
      have hcore2 : ∀ (y : List Char), coreOk (c :: y) = true →
          coreOk (' ' :: c :: y) = true := by
        intro y hx
        simp [coreOk, hspace, hws', hx]
      have hhead : ∀ x, headNotWsOk (c :: x) = true := by
        intro x; simp [headNotWsOk, hws']
      refine ⟨?_, ?_, ?_, ?_⟩
      · simpa [collapseGo, hws'] using hcore _ ih1
      · have hstep : collapseGo true true (c :: rest) =
            ' ' :: c :: collapseGo true false rest := by
          simp [collapseGo, hws']
        rw [hstep]
        exact hcore2 _ (hcore _ ih1)
      · simpa [collapseGo, hws'] using hcore _ ih1
      · simpa [collapseGo, hws'] using hhead (collapseGo true false rest)

/-- The collapse of any string is in collapsed form. -/
theorem isCollapsed_collapse (s : List Char) : isCollapsed (collapse s) = true := by
  have h := collapseGo_invariant s
  simp [isCollapsed, collapse, h.2.2.1, h.2.2.2]

/-- `coreOk` is preserved by dropping the head. -/
theorem coreOk_tail (d : Char) (t : List Char) (h : coreOk (d :: t) = true) :
    coreOk t = true := by
  cases t with
  | nil => rfl
  | cons e t' =>
    by_cases hws : isPyWs d = true
    · have h' : (((d == ' ') && !isPyWs e) && coreOk (e :: t')) = true := by
        simpa [coreOk, hws] using h
      rw [Bool.and_eq_true] at h'
      exact h'.2
    · simpa [coreOk, hws] using h

/-- On `coreOk` input, the running collapse is the identity. -/
theorem collapseGo_id_of_coreOk :
    ∀ (s : List Char), coreOk s = true → collapseGo true false s = s
  | [], _ => rfl
  | [c], h => by
    have hws : isPyWs c = false := by simpa [coreOk] using h
    simp [collapseGo, hws]
  | c :: d :: t, h => by
    by_cases hws : isPyWs c = true
    · have h3 : (((c == ' ') && !isPyWs d) && coreOk (d :: t)) = true := by
        simpa [coreOk, hws] using h
      rw [Bool.and_eq_true, Bool.and_eq_true] at h3
      obtain ⟨⟨hc, hd⟩, hrest⟩ := h3
      have hceq : c = ' ' := by simpa using hc
      have hdws : isPyWs d = false := by simpa using hd
      have hstep : collapseGo true false (c :: d :: t) =
          ' ' :: d :: collapseGo true false t := by
        simp [collapseGo, hws, hdws]
      rw [hstep, collapseGo_id_of_coreOk t (coreOk_tail d t hrest), hceq]
    · have hrest : coreOk (d :: t) = true := by
        simpa [coreOk, hws] using h
      have hstep : collapseGo true false (c :: d :: t) =
          c :: collapseGo true false (d :: t) := by
        simp [collapseGo, hws]
      rw [hstep, collapseGo_id_of_coreOk (d :: t) hrest]

/-- Collapsing is the identity on collapsed-form strings. -/
theorem collapse_of_isCollapsed (s : List Char) (h : isCollapsed s = true) :
    collapse s = s := by
  rw [isCollapsed, Bool.and_eq_true] at h
  obtain ⟨hcore, hhead⟩ := h
  cases s with
  | nil => rfl
  | cons c rest =>
    have hws : isPyWs c = false := by simpa [headNotWsOk] using hhead
    have hstep : collapse (c :: rest) = c :: collapseGo true false rest := by
      simp [collapse, collapseGo, hws]
    rw [hstep, collapseGo_id_of_coreOk rest (coreOk_tail c rest hcore)]

/-- Appending the ellipsis to any prefix of a `coreOk` string stays `coreOk`. -/
theorem coreOk_take_dots :
    ∀ (r : List Char) (k : Nat), coreOk r = true →
      coreOk (r.take k ++ "...".data) = true
  | _, 0, _ => by simp [List.take_zero]; decide
  | [], _ + 1, _ => by simp; decide
  | [c], _ + 1, h => by
    have hws : isPyWs c = false := by simpa [coreOk] using h
    simp [coreOk, hws]
    decide
  | c :: d :: t, k + 1, h => by
    by_cases hws : isPyWs c = true
    · have h3 : (((c == ' ') && !isPyWs d) && coreOk (d :: t)) = true := by
        simpa [coreOk, hws] using h
      rw [Bool.and_eq_true, Bool.and_eq_true] at h3
      obtain ⟨⟨hc, hd⟩, hrest⟩ := h3
      have hceq : c = ' ' := by simpa using hc
      have hdws : isPyWs d = false := by simpa using hd
      subst hceq
      cases k with
      | zero =>
        simp [List.take_succ_cons, List.take_zero]
        decide
      | succ k' =>
        have hrec := coreOk_take_dots (d :: t) (k' + 1) hrest
        simp only [List.take_succ_cons, List.cons_append] at hrec ⊢
        simp [coreOk, hdws, hrec]
    · have hrest : coreOk (d :: t) = true := by
        simpa [coreOk, hws] using h
      have hrec := coreOk_take_dots (d :: t) k hrest
      cases hX : (List.take k (d :: t) ++ "...".data) with
      | nil => exact absurd hX (by simp)
      | cons x xs =>
        rw [hX] at hrec
        simp only [List.take_succ_cons, List.cons_append, hX]
        simpa [coreOk, hws] using hrec

/-- Appending the ellipsis to any prefix keeps the no-leading-whitespace
form. -/
theorem headNotWsOk_take_dots (r : List Char) (k : Nat)
    (h : headNotWsOk r = true) :
    headNotWsOk (r.take k ++ "...".data) = true := by
  cases k with
  | zero => simp [List.take_zero]; decide
  | succ k' =>
    cases r with
    | nil => simp; decide
    | cons c t =>
      have hws : isPyWs c = false := by simpa [headNotWsOk] using h
      simp [List.take_succ_cons, headNotWsOk, hws]

/-- Every character emitted by the running collapse is an input character or
a space. -/
theorem mem_collapseGo :
    ∀ (st pd : Bool) (s : List Char) (c : Char),
      c ∈ collapseGo st pd s → c ∈ s ∨ c = ' '
  | _, _, [], c, h => by simp [collapseGo] at h
  | st, true, a :: rest, c, h => by
    by_cases hws : isPyWs a = true
    · rw [collapseGo, if_pos hws] at h
      rcases mem_collapseGo st st rest c h with h1 | h1
      · exact Or.inl (by simp [h1])
      · exact Or.inr h1
    · have hx : collapseGo st true (a :: rest) =
          ' ' :: a :: collapseGo true false rest := by
        simp [collapseGo, hws]
      rw [hx] at h
      simp only [List.mem_cons] at h
      rcases h with rfl | rfl | h
      · exact Or.inr rfl
      · exact Or.inl (by simp)
      · rcases mem_collapseGo true false rest c h with h1 | h1
        · exact Or.inl (by simp [h1])
        · exact Or.inr h1
  | st, false, a :: rest, c, h => by
    by_cases hws : isPyWs a = true
    · rw [collapseGo, if_pos hws] at h
      rcases mem_collapseGo st st rest c h with h1 | h1
      · exact Or.inl (by simp [h1])
      · exact Or.inr h1
    · have hx : collapseGo st false (a :: rest) =
          a :: collapseGo true false rest := by
        simp [collapseGo, hws]
      rw [hx] at h
      simp only [List.mem_cons] at h
      rcases h with rfl | h
      · exact Or.inl (by simp)
      · rcases mem_collapseGo true false rest c h with h1 | h1
        · exact Or.inl (by simp [h1])
        · exact Or.inr h1

/-- The collapse of a `<`-free string is `<`-free. -/
theorem collapse_no_lt (s : List Char) (h : ∀ c ∈ s, ¬ c = '<') :
    ∀ c ∈ collapse s, ¬ c = '<' := by
  intro c hc
  rcases mem_collapseGo false false s c hc with h1 | rfl
  · exact h c h1
  · decide

/-- `re.sub(r"<@\w+>", ...)` is the identity on `<`-free text. -/
theorem subUserMention_id_no_lt :
    ∀ (s : List Char), (∀ c ∈ s, ¬ c = '<') → subUserMention s = s
  | [], _ => rfl
  | c :: rest, h => by
    have hc : ¬ c = '<' := h c (by simp)
    have hr : ∀ x ∈ rest, ¬ x = '<' := fun x hx => h x (by simp [hx])
    have := subUserMention_id_no_lt rest hr
    rw [subUserMention] at this ⊢
    simp [subUserMentionGo, hc, this]

/-- `re.sub(r"<#\w+\|([^>]+)>", ...)` is the identity on `<`-free text. -/
theorem subChannelMention_id_no_lt :
    ∀ (s : List Char), (∀ c ∈ s, ¬ c = '<') → subChannelMention s = s
  | [], _ => rfl
  | c :: rest, h => by
    have hc : ¬ c = '<' := h c (by simp)
    have hr : ∀ x ∈ rest, ¬ x = '<' := fun x hx => h x (by simp [hx])
    have := subChannelMention_id_no_lt rest hr
    rw [subChannelMention] at this ⊢
    simp [subChannelMentionGo, hc, this]

/-- `re.sub(r"<([^|>]+)\|([^>]+)>", ...)` is the identity on `<`-free text. -/
theorem subLinkLabel_id_no_lt :
    ∀ (s : List Char), (∀ c ∈ s, ¬ c = '<') → subLinkLabel s = s
  | [], _ => rfl
  | c :: rest, h => by
    have hc : ¬ c = '<' := h c (by simp)
    have hr : ∀ x ∈ rest, ¬ x = '<' := fun x hx => h x (by simp [hx])
    have := subLinkLabel_id_no_lt rest hr
    rw [subLinkLabel] at this ⊢
    simp [subLinkLabelGo, hc, this]

/-- `re.sub(r"<([^>]+)>", ...)` is the identity on `<`-free text. -/
theorem subAngle_id_no_lt :
    ∀ (s : List Char), (∀ c ∈ s, ¬ c = '<') → subAngle s = s
  | [], _ => rfl
  | c :: rest, h => by
    have hc : ¬ c = '<' := h c (by simp)
    have hr : ∀ x ∈ rest, ¬ x = '<' := fun x hx => h x (by simp [hx])
    have := subAngle_id_no_lt rest hr
    rw [subAngle] at this ⊢
    simp [subAngleGo, hc, this]

/-- On `<`-free text the markup rewrite reduces to whitespace collapsing. -/
theorem rewriteMarkup_no_lt (s : List Char) (h : ∀ c ∈ s, ¬ c = '<') :
    rewriteMarkup s = collapse s := by
  rw [rewriteMarkup, subUserMention_id_no_lt s h, subChannelMention_id_no_lt s h,
    subLinkLabel_id_no_lt s h, subAngle_id_no_lt s h]

/-- The two branch equations of `truncate_text`. -/
theorem truncate_text_of_le (s : List Char) (n : Int)
    (h : ((rewriteMarkup s).length : Int) ≤ n) :
    truncate_text s n = rewriteMarkup s := by
  simp [truncate_text, h]

/-- Truncation branch of `truncate_text` for `n ≥ 3`. -/
theorem truncate_text_of_gt (s : List Char) (n : Int) (h3 : 3 ≤ n)
    (h : ¬ ((rewriteMarkup s).length : Int) ≤ n) :
    truncate_text s n = (rewriteMarkup s).take (n - 3).toNat ++ "...".data := by
  have hk : (0 : Int) ≤ n - 3 := by omega
  simp [truncate_text, h, pySlicePre, hk]

/-- C7 counterexample: `truncate_text("abcdef", 2)` evaluates to
`"abcde..."` — Python's negative slice `text[:-1]` keeps almost the whole
string — so the result has length 8, not at most 2. -/
theorem c7_counterexample :
    truncate_text "abcdef".data 2 = "abcde...".data ∧
    ¬ (((truncate_text "abcdef".data 2).length : Int) ≤ 2) := by
  constructor
  · decide
  · decide

/-- C7 (amended): for every text and every `max_len ≥ 3`, `truncate_text`
returns a string of length at most `max_len`; when the markup-rewritten,
whitespace-collapsed input exceeds `max_len` characters the result is its
first `max_len - 3` characters with `...` appended (the ellipsis counting
toward `max_len`), and otherwise the rewritten input is returned whole.
For `max_len < 3` the bound fails (see the counterexample). -/
theorem c7_truncate_length_bound (s : List Char) (max_len : Int)
    (h3 : 3 ≤ max_len) :
    ((truncate_text s max_len).length : Int) ≤ max_len ∧
    (((rewriteMarkup s).length : Int) ≤ max_len →
       truncate_text s max_len = rewriteMarkup s) ∧
    (max_len < ((rewriteMarkup s).length : Int) →
       truncate_text s max_len =
         (rewriteMarkup s).take (max_len - 3).toNat ++ "...".data) := by
  by_cases hle : ((rewriteMarkup s).length : Int) ≤ max_len
  · have ht := truncate_text_of_le s max_len hle
    refine ⟨by rw [ht]; exact hle, fun _ => ht, fun hlt => absurd hle (by omega)⟩
  · have ht := truncate_text_of_gt s max_len h3 hle
    refine ⟨?_, fun hc => absurd hc hle, fun _ => ht⟩
    rw [ht]
    have hlen : ((rewriteMarkup s).take (max_len - 3).toNat ++ "...".data).length =
        min (max_len - 3).toNat (rewriteMarkup s).length + 3 := by
      simp [List.length_append, List.length_take]
    rw [hlen]
    have htn : ((max_len - 3).toNat : Int) = max_len - 3 :=
      Int.toNat_of_nonneg (by omega)
    omega

/-- C7 witness: the amended bound at `max_len = 3` on `abcdef`, where the
result is exactly the ellipsis. -/
theorem c7_witness :
    (3 : Int) ≤ 3 ∧ ((truncate_text "abcdef".data 3).length : Int) ≤ 3 :=
  ⟨by decide, (c7_truncate_length_bound "abcdef".data 3 (by decide)).1⟩

/-- C8 counterexample: `truncate_text` is not idempotent.  On `<a<b>c>`
(with `max_len = 100`) the first application rewrites the angle markup to
`a<bc>`, and the second application rewrites that again to `abc`: the
leftmost-match rule of `re.sub(r"<([^>]+)>", ...)` can leave a `<` that a
second pass consumes. -/
theorem c8_counterexample :
    truncate_text "<a<b>c>".data 100 = "a<bc>".data ∧
    truncate_text (truncate_text "<a<b>c>".data 100) 100 = "abc".data ∧
    truncate_text (truncate_text "<a<b>c>".data 100) 100 ≠
      truncate_text "<a<b>c>".data 100 := by
  refine ⟨by decide, by decide, by decide⟩

/-- C8 (amended): `truncate_text` is idempotent on inputs containing no `<`
character, for `max_len ≥ 3`: the second markup rewrite is then the
identity, the whitespace collapse is already a fixed point, and the
truncated result is short enough to pass through unchanged.  (Inputs with
nested or unbalanced `<` markup, and `max_len < 3`, both defeat idempotence
— see the counterexample and C7.) -/
theorem c8_truncate_idempotent_no_lt (s : List Char) (max_len : Int)
    (h3 : 3 ≤ max_len) (hlt : ∀ c ∈ s, ¬ c = '<') :
    truncate_text (truncate_text s max_len) max_len = truncate_text s max_len := by
  have hrw : rewriteMarkup s = collapse s := rewriteMarkup_no_lt s hlt
  have hcoll : isCollapsed (collapse s) = true := isCollapsed_collapse s
  have hnolt : ∀ c ∈ collapse s, ¬ c = '<' := collapse_no_lt s hlt
  rw [isCollapsed, Bool.and_eq_true] at hcoll
  obtain ⟨hcore, hhead⟩ := hcoll
  by_cases hle : ((rewriteMarkup s).length : Int) ≤ max_len
  · have ht := truncate_text_of_le s max_len hle
    rw [ht, hrw]
    have hrw2 : rewriteMarkup (collapse s) = collapse (collapse s) :=
      rewriteMarkup_no_lt (collapse s) hnolt
    have hfix : collapse (collapse s) = collapse s :=
      collapse_of_isCollapsed (collapse s) (isCollapsed_collapse s)
    have hlen2 : ((rewriteMarkup (collapse s)).length : Int) ≤ max_len := by
      rw [hrw2, hfix, ← hrw]
      exact hle
    rw [truncate_text_of_le (collapse s) max_len hlen2, hrw2, hfix]
  · have ht := truncate_text_of_gt s max_len h3 hle
    rw [ht, hrw]
    set k := (max_len - 3).toNat with hk
    set t1 := (collapse s).take k ++ "...".data with ht1
    have htn : (k : Int) = max_len - 3 := by
      rw [hk]; exact Int.toNat_of_nonneg (by omega)
    have hklt : k < (collapse s).length := by
      rw [hrw] at hle
      omega
    have ht1nolt : ∀ c ∈ t1, ¬ c = '<' := by
      intro c hc
      rw [ht1] at hc
      rcases List.mem_append.mp hc with hc1 | hc2
      · exact hnolt c (List.take_subset k (collapse s) hc1)
      · intro hq
        subst hq
        simp at hc2
    have ht1coll : isCollapsed t1 = true := by
      rw [isCollapsed, Bool.and_eq_true, ht1]
      exact ⟨coreOk_take_dots (collapse s) k hcore,
        headNotWsOk_take_dots (collapse s) k hhead⟩
    have hrwt1 : rewriteMarkup t1 = t1 := by
      rw [rewriteMarkup_no_lt t1 ht1nolt, collapse_of_isCollapsed t1 ht1coll]
    have ht1len : (t1.length : Int) = max_len := by
      rw [ht1]
      have : ((collapse s).take k).length = k := by
        rw [List.length_take]
        omega
      simp [List.length_append, this]
      omega
    have hfin : ((rewriteMarkup t1).length : Int) ≤ max_len := by
      rw [hrwt1, ht1len]
    rw [truncate_text_of_le t1 max_len hfin, hrwt1]

/-- C8 witness: idempotence evaluated on a `<`-free input at `max_len = 3`. -/
theorem c8_witness :
    (3 : Int) ≤ 3 ∧ (∀ c ∈ "ab cd".data, ¬ c = '<') ∧
    truncate_text (truncate_text "ab cd".data 3) 3 = truncate_text "ab cd".data 3 :=
  ⟨by decide, by decide,
    c8_truncate_idempotent_no_lt "ab cd".data 3 (by decide) (by decide)⟩
